import Mathlib

/-!
Shallow embedding of the Branch & Product Code Mapper (src/app.py).

The program is a pandas-based lookup tool: it fetches two JSON collections
(products, branches), normalizes them into two tables, and answers two
search queries (Product to Branches, Branch to Products).  Dynamic Python
values reaching the normalizer and the queries are modelled by the
inductive type `Val` below; the pandas / Python primitives the source uses
(`pd.isna`, `str()`, `int()`, `list()`, truthiness, `in`) are embedded as
total Lean functions over `Val`, with fallible primitives returning
`Except String`.
-/

/-- Dynamic values as they occur in the program's data flow: JSON leaves and
containers, plus Python `None`, the float `NaN` that pandas inserts for
missing cells, and a generic exotic object (`other`), which carries the
element list produced by iterating it, or `Option.none` when iterating it
raises `TypeError` (a non-coercible object).  JSON floats other than the
pandas `NaN` marker are outside the model. -/
inductive Val where
  | none : Val
  | nan : Val
  | str : String → Val
  | int : Int → Val
  | list : List Val → Val
  | dict : List (String × Val) → Val
  | other : Option (List Val) → Val
deriving Repr

mutual

/-- Structural equality of values, embedding Python `==` on our value
universe.  Following pandas `isin` and the identity-first list membership
the program relies on, `nan` compares equal to `nan`. -/
def Val.beq : Val → Val → Bool
  | .none, .none => true
  | .nan, .nan => true
  | .str a, .str b => a == b
  | .int a, .int b => a == b
  | .list a, .list b => Val.beqList a b
  | .dict a, .dict b => Val.beqItems a b
  | .other Option.none, .other Option.none => true
  | .other (some a), .other (some b) => Val.beqList a b
  | _, _ => false

/-- Helper of `Val.beq` for lists of values. -/
def Val.beqList : List Val → List Val → Bool
  | [], [] => true
  | x :: xs, y :: ys => Val.beq x y && Val.beqList xs ys
  | _, _ => false

/-- Helper of `Val.beq` for dict items. -/
def Val.beqItems : List (String × Val) → List (String × Val) → Bool
  | [], [] => true
  | (k, v) :: xs, (l, w) :: ys => k == l && Val.beq v w && Val.beqItems xs ys
  | _, _ => false

end

mutual

theorem Val.beq_refl : ∀ a : Val, Val.beq a a = true
  | .none => rfl
  | .nan => rfl
  | .str s => by simp [Val.beq]
  | .int n => by simp [Val.beq]
  | .list xs => by simp [Val.beq, Val.beqList_refl xs]
  | .dict kvs => by simp [Val.beq, Val.beqItems_refl kvs]
  | .other Option.none => rfl
  | .other (some xs) => by simp [Val.beq, Val.beqList_refl xs]

theorem Val.beqList_refl : ∀ xs : List Val, Val.beqList xs xs = true
  | [] => rfl
  | x :: xs => by simp [Val.beqList, Val.beq_refl x, Val.beqList_refl xs]

theorem Val.beqItems_refl : ∀ kvs : List (String × Val), Val.beqItems kvs kvs = true
  | [] => rfl
  | (k, v) :: kvs => by simp [Val.beqItems, Val.beq_refl v, Val.beqItems_refl kvs]

end

mutual

theorem Val.beq_sound : ∀ a b : Val, Val.beq a b = true → a = b
  | .none, b => by cases b <;> simp [Val.beq]
  | .nan, b => by cases b <;> simp [Val.beq]
  | .str s, b => by cases b <;> simp [Val.beq]
  | .int n, b => by cases b <;> simp [Val.beq]
  | .list xs, b => by
    cases b <;> intro h <;> simp [Val.beq] at h ⊢
    exact Val.beqList_sound xs _ h
  | .dict kvs, b => by
    cases b <;> intro h <;> simp [Val.beq] at h ⊢
    exact Val.beqItems_sound kvs _ h
  | .other o, b => by
    cases b <;> intro h
    case other p =>
      cases o <;> cases p <;> simp [Val.beq] at h ⊢
      exact Val.beqList_sound _ _ h
    all_goals (cases o <;> simp [Val.beq] at h)

theorem Val.beqList_sound : ∀ xs ys : List Val, Val.beqList xs ys = true → xs = ys
  | [], [] => fun _ => rfl
  | [], _ :: _ => by simp [Val.beqList]
  | _ :: _, [] => by simp [Val.beqList]
  | x :: xs, y :: ys => by
    intro h
    simp [Val.beqList] at h
    rw [Val.beq_sound x y h.1, Val.beqList_sound xs ys h.2]

theorem Val.beqItems_sound : ∀ xs ys : List (String × Val), Val.beqItems xs ys = true → xs = ys
  | [], [] => fun _ => rfl
  | [], _ :: _ => by simp [Val.beqItems]
  | _ :: _, [] => by simp [Val.beqItems]
  | (k, v) :: xs, (l, w) :: ys => by
    intro h
    simp [Val.beqItems] at h
    rw [h.1.1, Val.beq_sound v w h.1.2, Val.beqItems_sound xs ys h.2]

end

instance : BEq Val := ⟨Val.beq⟩

instance : LawfulBEq Val where
  eq_of_beq h := Val.beq_sound _ _ h
  rfl := Val.beq_refl _

instance : DecidableEq Val := fun a b =>
  if h : Val.beq a b = true then isTrue (Val.beq_sound a b h)
  else isFalse (fun hh => h (hh ▸ Val.beq_refl a))

instance {ε α : Type} [DecidableEq ε] [DecidableEq α] : DecidableEq (Except ε α) := fun a b =>
  match a, b with
  | .ok x, .ok y => decidable_of_iff (x = y) (by simp)
  | .error x, .error y => decidable_of_iff (x = y) (by simp)
  | .ok _, .error _ => isFalse (fun h => Except.noConfusion h)
  | .error _, .ok _ => isFalse (fun h => Except.noConfusion h)

/-- Python truthiness (`bool(x)`): `None` is falsy, `NaN` is truthy, a
string / sequence / dict is truthy iff non-empty, an int iff non-zero, and
a generic object is truthy. -/
def truthy : Val → Bool
  | .none => false
  | .nan => true
  | .str s => s ≠ ""
  | .int n => n ≠ 0
  | .list xs => !xs.isEmpty
  | .dict kvs => !kvs.isEmpty
  | .other _ => true

/-- Embedding of `pd.isna(x)` at the scalar positions where the source
applies it (its argument is never a Python `list` there, those are
intercepted by the preceding `isinstance(x, list)` check): true exactly on
`None` and `NaN`. -/
def pd_isna : Val → Bool
  | .none => true
  | .nan => true
  | _ => false

/-- Python `list(x)`: succeeds on iterables (a list is copied, a string
yields its characters, a dict yields its keys, an exotic iterable yields
its elements) and raises `TypeError` on non-iterables (`None`, `NaN`,
numbers, non-iterable exotic objects). -/
def pyList : Val → Except String (List Val)
  | .list xs => .ok xs
  | .str s => .ok (s.data.map (fun c => Val.str (String.mk [c])))
  | .dict kvs => .ok (kvs.map (fun kv => Val.str kv.1))
  | .other (some xs) => .ok xs
  | .other Option.none => .error "TypeError: object is not iterable"
  | .none => .error "TypeError: NoneType object is not iterable"
  | .nan => .error "TypeError: float object is not iterable"
  | .int _ => .error "TypeError: int object is not iterable"

/-- Characters Python's `str.strip()` removes (the ASCII whitespace set;
the rare non-ASCII Unicode whitespace is outside the model). -/
def pySpace (c : Char) : Bool :=
  c = ' ' || c = '\t' || c = '\n' || c = '\x0d' || c = '\x0b' || c = '\x0c'

/-- Python `s.strip()` on the character list of a string. -/
def stripChars (cs : List Char) : List Char :=
  ((cs.dropWhile pySpace).reverse.dropWhile pySpace).reverse

/-- Python `s.split(",")` on the character list of a string: the maximal
runs between commas, so the empty string gives one empty piece and `n`
commas give `n + 1` pieces. -/
def splitComma : List Char → List (List Char)
  | [] => [[]]
  | c :: rest =>
    if c = ',' then [] :: splitComma rest
    else
      match splitComma rest with
      | [] => [[c]]
      | p :: ps => (c :: p) :: ps

mutual

/-- Python `repr(x)` restricted to our value universe.  Strings are wrapped
in single quotes (the escaping Python applies to quotes and backslashes
inside the string is outside the model); `None` prints as `None`, the
pandas missing-cell float as `nan`; a generic object prints as a fixed
placeholder standing for Python's address-bearing default form. -/
def pyRepr : Val → String
  | .none => "None"
  | .nan => "nan"
  | .str s => "\x27" ++ s ++ "\x27"
  | .int n => toString n
  | .list xs => "[" ++ String.intercalate ", " (pyReprList xs) ++ "]"
  | .dict kvs => "\x7b" ++ String.intercalate ", " (pyReprItems kvs) ++ "\x7d"
  | .other _ => "<object>"

/-- Helper of `pyRepr` for the elements of a list. -/
def pyReprList : List Val → List String
  | [] => []
  | v :: vs => pyRepr v :: pyReprList vs

/-- Helper of `pyRepr` for the items of a dict. -/
def pyReprItems : List (String × Val) → List String
  | [] => []
  | (k, v) :: kvs => ("\x27" ++ k ++ "\x27: " ++ pyRepr v) :: pyReprItems kvs

end

/-- Python `str(x)`: a string is itself, every other value prints as its
`repr`. -/
def pyStr : Val → String
  | .str s => s
  | v => pyRepr v

/-- Python `int(x)` on a string: optional surrounding whitespace, an
optional sign, then at least one decimal digit (Python's underscore
digit-grouping is outside the model). -/
def parseIntChars (cs : List Char) : Option Int :=
  let t := stripChars cs
  let signed : Int × List Char :=
    match t with
    | '-' :: rest => (-1, rest)
    | '+' :: rest => (1, rest)
    | _ => (1, t)
  if signed.2 ≠ [] ∧ signed.2.all Char.isDigit then
    some (signed.1 * (Int.ofNat (signed.2.foldl (fun acc c => acc * 10 + (c.toNat - 48)) 0)))
  else
    Option.none

/-- Python `int(x)`: ints pass through, numeric strings are parsed, and
everything else (`None`, `NaN`, containers, exotic objects) raises. -/
def pyInt : Val → Except String Int
  | .int n => .ok n
  | .str s =>
    match parseIntChars s.data with
    | some n => .ok n
    | Option.none => .error "ValueError: invalid literal for int()"
  | .nan => .error "ValueError: cannot convert float NaN to integer"
  | .none => .error "TypeError: int() argument must not be None"
  | _ => .error "TypeError: int() argument must be a string or a number"

/-- Leading-segment test on character lists (`pat` begins `cs`). -/
def beginsWith : List Char → List Char → Bool
  | [], _ => true
  | _ :: _, [] => false
  | a :: as, b :: bs => a = b && beginsWith as bs

/-- Substring occurrence on character lists. -/
def hasSubstring (hay pat : List Char) : Bool :=
  match hay with
  | [] => pat.isEmpty
  | _ :: rest => beginsWith pat hay || hasSubstring rest pat

/-- Case-insensitive substring containment: does the term occur in the
text, ignoring (ASCII) letter case?  This is the notion of matching the
spec speaks about.  It is not what the source computes — the pandas call
`series.str.contains(term, case=False)` treats the term as a regular
expression (embedded below as `compileTerm`/`reSearch`) — but theorem
`reSearch_litRe` proves the two agree for every term free of regex
metacharacters. -/
def containsCI (hay term : String) : Bool :=
  hasSubstring (hay.data.map Char.toLower) (term.data.map Char.toLower)

/-! ## The regular-expression engine behind the pandas match
The source filters with `series.astype(str).str.contains(search_input,
case=False, na=False)` (src/app.py lines 173-176 and 216-218).  With the
pandas default `regex=True`, the user's term is compiled with
`re.compile(term, re.IGNORECASE)` and each cell is kept when `re.search`
finds a match; an invalid pattern raises `re.error`, which nothing in the
app catches.  The fragment embedded here covers literal characters,
escapes, the wildcard dot, character sets with ranges and negation,
shorthand classes, grouping, alternation, the quantifiers and counted
repeats; constructs outside the fragment (anchors, backreferences,
lookarounds, inline flags, character-code escapes, possessive quantifiers)
are reported as `unsupported`, and the model asserts nothing about terms
using them.  The matcher is by Brzozowski derivatives and is proved
equivalent to a declarative matching relation (`RMatch`). -/

/-- Abstract syntax of the regular-expression fragment the model embeds for
`Series.str.contains(term, case=False)` (pandas compiles the search term
with `re.compile(term, re.IGNORECASE)` and keeps rows where `re.search`
finds a match).  A character class `cls neg items` is a set of inclusive
character ranges, possibly negated — a plain character is the singleton
range, `.` is the negated newline class, and a negated empty class matches
every character.  Quantifiers and counted repeats are elaborated into
`seq`/`alt`/`star` by the pattern parser below. -/
inductive Re where
  | fail : Re
  | eps : Re
  | cls : Bool → List (Char × Char) → Re
  | seq : Re → Re → Re
  | alt : Re → Re → Re
  | star : Re → Re
deriving Repr

/-- Membership of a character in one inclusive range of a class, under
`re.IGNORECASE` when `ci` is true: the character matches if it, or one of
its case variants, lies in the range (ASCII case folding, like the rest of
the model). -/
def charInRange (ci : Bool) (c : Char) (lo hi : Char) : Bool :=
  (lo ≤ c && c ≤ hi) ||
    (ci && ((lo ≤ c.toLower && c.toLower ≤ hi) || (lo ≤ c.toUpper && c.toUpper ≤ hi)))

/-- Membership of a character in the ranges of a class. -/
def charInItems (ci : Bool) (c : Char) (items : List (Char × Char)) : Bool :=
  items.any (fun it => charInRange ci c it.1 it.2)

/-- Membership of a character in a possibly negated class. -/
def charInCls (ci : Bool) (c : Char) (neg : Bool) (items : List (Char × Char)) : Bool :=
  if neg then !(charInItems ci c items) else charInItems ci c items

/-- Whether a regex matches the empty string. -/
def nullable : Re → Bool
  | .fail => false
  | .eps => true
  | .cls _ _ => false
  | .seq a b => nullable a && nullable b
  | .alt a b => nullable a || nullable b
  | .star _ => true

/-- Brzozowski derivative of a regex by one character: `rderiv ci c r`
matches `s` exactly when `r` matches `c :: s` (proved below). -/
def rderiv (ci : Bool) (c : Char) : Re → Re
  | .fail => .fail
  | .eps => .fail
  | .cls neg items => if charInCls ci c neg items then .eps else .fail
  | .seq a b =>
    if nullable a then .alt (.seq (rderiv ci c a) b) (rderiv ci c b)
    else .seq (rderiv ci c a) b
  | .alt a b => .alt (rderiv ci c a) (rderiv ci c b)
  | .star a => .seq (rderiv ci c a) (.star a)

/-- Whether a regex matches an entire string, by iterated derivatives. -/
def fullMatch (ci : Bool) (r : Re) : List Char → Bool
  | [] => nullable r
  | c :: cs => fullMatch ci (rderiv ci c r) cs

/-- Declarative matching semantics of the regex fragment, the specification
the executable matcher is proved against. -/
inductive RMatch (ci : Bool) : Re → List Char → Prop where
  | eps : RMatch ci .eps []
  | cls (c : Char) (neg : Bool) (items : List (Char × Char))
      (h : charInCls ci c neg items = true) : RMatch ci (.cls neg items) [c]
  | seq (a b : Re) (s1 s2 : List Char) (ha : RMatch ci a s1) (hb : RMatch ci b s2) :
      RMatch ci (.seq a b) (s1 ++ s2)
  | altL (a b : Re) (s : List Char) (h : RMatch ci a s) : RMatch ci (.alt a b) s
  | altR (a b : Re) (s : List Char) (h : RMatch ci b s) : RMatch ci (.alt a b) s
  | starNil (a : Re) : RMatch ci (.star a) []
  | starCons (a : Re) (s1 s2 : List Char) (h1 : RMatch ci a s1) (h2 : RMatch ci (.star a) s2) :
      RMatch ci (.star a) (s1 ++ s2)

theorem rmatch_fail_inv {ci : Bool} {s : List Char} (h : RMatch ci .fail s) : False := by
  cases h

theorem rmatch_eps_inv {ci : Bool} {s : List Char} (h : RMatch ci .eps s) : s = [] := by
  cases h
  rfl

theorem rmatch_cls_inv {ci neg : Bool} {items : List (Char × Char)} {s : List Char}
    (h : RMatch ci (.cls neg items) s) :
    ∃ c, s = [c] ∧ charInCls ci c neg items = true := by
  cases h with
  | cls c _ _ hc => exact ⟨c, rfl, hc⟩

theorem rmatch_seq_inv {ci : Bool} {a b : Re} {s : List Char} (h : RMatch ci (.seq a b) s) :
    ∃ s1 s2, s = s1 ++ s2 ∧ RMatch ci a s1 ∧ RMatch ci b s2 := by
  cases h with
  | seq _ _ s1 s2 ha hb => exact ⟨s1, s2, rfl, ha, hb⟩

theorem rmatch_alt_inv {ci : Bool} {a b : Re} {s : List Char} (h : RMatch ci (.alt a b) s) :
    RMatch ci a s ∨ RMatch ci b s := by
  cases h with
  | altL _ _ _ h => exact Or.inl h
  | altR _ _ _ h => exact Or.inr h

theorem nullable_iff {ci : Bool} (r : Re) : nullable r = true ↔ RMatch ci r [] := by
  induction r with
  | fail =>
    simp only [nullable, Bool.false_eq_true, false_iff]
    exact rmatch_fail_inv
  | eps => simp only [nullable, true_iff]; exact RMatch.eps
  | cls neg items =>
    simp only [nullable, Bool.false_eq_true, false_iff]
    intro h
    obtain ⟨c, hc, -⟩ := rmatch_cls_inv h
    cases hc
  | seq a b iha ihb =>
    simp only [nullable, Bool.and_eq_true, iha, ihb]
    constructor
    · rintro ⟨h1, h2⟩
      exact RMatch.seq a b [] [] h1 h2
    · intro h
      obtain ⟨s1, s2, hs, ha, hb⟩ := rmatch_seq_inv h
      obtain ⟨h1, h2⟩ := List.append_eq_nil.mp hs.symm
      subst h1; subst h2
      exact ⟨ha, hb⟩
  | alt a b iha ihb =>
    simp only [nullable, Bool.or_eq_true, iha, ihb]
    constructor
    · rintro (h | h)
      · exact RMatch.altL a b [] h
      · exact RMatch.altR a b [] h
    · exact rmatch_alt_inv
  | star a ih =>
    simp only [nullable, true_iff]
    exact RMatch.starNil a

theorem rderiv_sound {ci : Bool} {c : Char} {r : Re} {s : List Char}
    (h : RMatch ci (rderiv ci c r) s) : RMatch ci r (c :: s) := by
  induction r generalizing s with
  | fail => exact absurd h rmatch_fail_inv
  | eps => exact absurd h rmatch_fail_inv
  | cls neg items =>
    rw [rderiv] at h
    split at h
    · next hc =>
      rw [rmatch_eps_inv h]
      exact RMatch.cls c neg items hc
    · exact absurd h rmatch_fail_inv
  | seq a b iha ihb =>
    rw [rderiv] at h
    split at h
    · next hn =>
      rcases rmatch_alt_inv h with h1 | h2
      · obtain ⟨s1, s2, hs, ha, hb⟩ := rmatch_seq_inv h1
        subst hs
        exact RMatch.seq a b (c :: s1) s2 (iha ha) hb
      · have ha0 : RMatch ci a [] := (nullable_iff a).mp hn
        exact RMatch.seq a b [] (c :: s) ha0 (ihb h2)
    · obtain ⟨s1, s2, hs, ha, hb⟩ := rmatch_seq_inv h
      subst hs
      exact RMatch.seq a b (c :: s1) s2 (iha ha) hb
  | alt a b iha ihb =>
    rcases rmatch_alt_inv h with h1 | h2
    · exact RMatch.altL a b _ (iha h1)
    · exact RMatch.altR a b _ (ihb h2)
  | star a ih =>
    rw [rderiv] at h
    obtain ⟨s1, s2, hs, ha, hb⟩ := rmatch_seq_inv h
    subst hs
    exact RMatch.starCons a (c :: s1) s2 (ih ha) hb

theorem rderiv_complete {ci : Bool} {c : Char} {r : Re} {s t : List Char}
    (h : RMatch ci r t) (ht : t = c :: s) : RMatch ci (rderiv ci c r) s := by
  induction h generalizing c s with
  | eps => cases ht
  | cls c2 neg items hc =>
    injection ht with h1 h2
    subst h1
    cases h2
    rw [rderiv, if_pos hc]
    exact RMatch.eps
  | seq a b s1 s2 ha hb iha ihb =>
    cases s1 with
    | nil =>
      have hn : nullable a = true := (nullable_iff a).mpr ha
      rw [rderiv, if_pos hn]
      exact RMatch.altR _ _ _ (ihb ht)
    | cons c1 s1t =>
      injection ht with h1 h2
      subst h1
      subst h2
      by_cases hn : nullable a = true
      · rw [rderiv, if_pos hn]
        exact RMatch.altL _ _ _ (RMatch.seq _ _ s1t s2 (iha rfl) hb)
      · rw [rderiv, if_neg hn]
        exact RMatch.seq _ _ s1t s2 (iha rfl) hb
  | altL a b s0 h ih =>
    rw [rderiv]
    exact RMatch.altL _ _ _ (ih ht)
  | altR a b s0 h ih =>
    rw [rderiv]
    exact RMatch.altR _ _ _ (ih ht)
  | starNil a => cases ht
  | starCons a s1 s2 h1 h2 ih1 ih2 =>
    cases s1 with
    | nil => exact ih2 ht
    | cons c1 s1t =>
      injection ht with h1 h2
      subst h1
      subst h2
      rw [rderiv]
      exact RMatch.seq _ _ s1t s2 (ih1 rfl) h2

theorem fullMatch_iff {ci : Bool} (r : Re) (s : List Char) :
    fullMatch ci r s = true ↔ RMatch ci r s := by
  induction s generalizing r with
  | nil => exact nullable_iff r
  | cons c cs ih =>
    rw [fullMatch, ih]
    constructor
    · exact rderiv_sound
    · intro h
      exact rderiv_complete h rfl

/-- A regex matching any string: used to turn whole-string matching into
`re.search`-style matching at any position. -/
def anyStar : Re := .star (.cls true [])

/-- Embedding of `re.search(pattern, s)` as pandas `str.contains` calls it:
true when the pattern matches some contiguous substring of `s`. -/
def reSearch (ci : Bool) (r : Re) (s : List Char) : Bool :=
  fullMatch ci (.seq anyStar (.seq r anyStar)) s

theorem rmatch_anyStar {ci : Bool} (s : List Char) : RMatch ci anyStar s := by
  induction s with
  | nil => exact RMatch.starNil _
  | cons c cs ih =>
    exact RMatch.starCons _ [c] cs (RMatch.cls c true [] rfl) ih

theorem reSearch_iff {ci : Bool} (r : Re) (s : List Char) :
    reSearch ci r s = true ↔ ∃ pre mid post, s = pre ++ mid ++ post ∧ RMatch ci r mid := by
  rw [reSearch, fullMatch_iff]
  constructor
  · intro h
    obtain ⟨s1, s23, hs, -, h23⟩ := rmatch_seq_inv h
    obtain ⟨s2, s3, hs2, h2, -⟩ := rmatch_seq_inv h23
    refine ⟨s1, s2, s3, ?_, h2⟩
    rw [hs, hs2, List.append_assoc]
  · rintro ⟨pre, mid, post, rfl, hm⟩
    rw [List.append_assoc]
    exact RMatch.seq _ _ pre (mid ++ post) (rmatch_anyStar pre)
      (RMatch.seq _ _ mid post hm (rmatch_anyStar post))

/-- The regex a metacharacter-free search term compiles to: the sequence of
its characters as singleton classes. -/
def litRe : List Char → Re
  | [] => .eps
  | c :: cs => .seq (.cls false [(c, c)]) (litRe cs)

/-- Pointwise case-insensitive equality of character lists (ASCII folding). -/
def eqCI : List Char → List Char → Bool
  | [], [] => true
  | a :: as, b :: bs => (a.toLower = b.toLower) && eqCI as bs
  | _, _ => false

/-- Round-trip of `Char.ofNat` on valid code points. -/
theorem charOfNat_toNat {n : Nat} (h : n.isValidChar) : (Char.ofNat n).toNat = n := by
  rw [Char.ofNat, dif_pos h]
  rfl

theorem charEq_iff {c d : Char} : c = d ↔ c.toNat = d.toNat := by
  constructor
  · intro h
    rw [h]
  · intro h
    have := congrArg Char.ofNat h
    simpa using this

theorem toNat_toLower (c : Char) :
    c.toLower.toNat = if 65 ≤ c.toNat ∧ c.toNat ≤ 90 then c.toNat + 32 else c.toNat := by
  unfold Char.toLower
  split
  · next h =>
    rw [if_pos (by omega)]
    exact charOfNat_toNat (Or.inl (by omega))
  · next h =>
    rw [if_neg (by omega)]

theorem toNat_toUpper (c : Char) :
    c.toUpper.toNat = if 97 ≤ c.toNat ∧ c.toNat ≤ 122 then c.toNat - 32 else c.toNat := by
  unfold Char.toUpper
  split
  · next h =>
    rw [if_pos (by omega)]
    exact charOfNat_toNat (Or.inl (by omega))
  · next h =>
    rw [if_neg (by omega)]

theorem charFold_iff (c d : Char) :
    (c = d ∨ c.toLower = d ∨ c.toUpper = d) ↔ c.toLower = d.toLower := by
  simp only [charEq_iff, toNat_toLower, toNat_toUpper]
  split_ifs <;> omega

theorem charInCls_single {c d : Char} :
    charInCls true c false [(d, d)] = true ↔ c.toLower = d.toLower := by
  rw [← charFold_iff]
  show (charInRange true c d d || false) = true ↔ _
  rw [Bool.or_false, charInRange]
  simp only [Bool.or_eq_true, Bool.and_eq_true, Bool.true_and, decide_eq_true_eq]
  constructor
  · rintro (⟨h1, h2⟩ | ⟨h1, h2⟩ | ⟨h1, h2⟩)
    · exact Or.inl (le_antisymm h2 h1)
    · exact Or.inr (Or.inl (le_antisymm h2 h1))
    · exact Or.inr (Or.inr (le_antisymm h2 h1))
  · rintro (h | h | h)
    · exact Or.inl ⟨h.ge, h.le⟩
    · exact Or.inr (Or.inl ⟨h.ge, h.le⟩)
    · exact Or.inr (Or.inr ⟨h.ge, h.le⟩)

theorem rmatch_litRe_iff {p s : List Char} :
    RMatch true (litRe p) s ↔ eqCI s p = true := by
  induction p generalizing s with
  | nil =>
    constructor
    · intro h
      rw [rmatch_eps_inv h]
      rfl
    · intro h
      cases s with
      | nil => exact RMatch.eps
      | cons a as => exact absurd h (by simp [eqCI])
  | cons c cs ih =>
    constructor
    · intro h
      obtain ⟨s1, s2, hs, h1, h2⟩ := rmatch_seq_inv h
      obtain ⟨c1, hc1, hcls⟩ := rmatch_cls_inv h1
      subst hs
      subst hc1
      rw [List.cons_append, List.nil_append]
      show (c1.toLower = c.toLower && eqCI s2 cs) = true
      rw [Bool.and_eq_true, decide_eq_true_eq]
      exact ⟨charInCls_single.mp hcls, ih.mp h2⟩
    · intro h
      cases s with
      | nil => exact absurd h (by simp [eqCI])
      | cons a as =>
        rw [show eqCI (a :: as) (c :: cs) = (a.toLower = c.toLower && eqCI as cs) from rfl,
          Bool.and_eq_true, decide_eq_true_eq] at h
        have h1 : RMatch true (Re.cls false [(c, c)]) [a] :=
          RMatch.cls a false [(c, c)] (charInCls_single.mpr h.1)
        exact RMatch.seq _ _ [a] as h1 (ih.mpr h.2)

theorem eqCI_iff_map {s p : List Char} :
    eqCI s p = true ↔ s.map Char.toLower = p.map Char.toLower := by
  induction s generalizing p with
  | nil => cases p <;> simp [eqCI]
  | cons a as ih => cases p <;> simp [eqCI, ih]

theorem beginsWith_iff {pat cs : List Char} :
    beginsWith pat cs = true ↔ ∃ rest, cs = pat ++ rest := by
  induction pat generalizing cs with
  | nil => simp [beginsWith]
  | cons a as ih =>
    cases cs with
    | nil => simp [beginsWith]
    | cons b bs =>
      rw [show beginsWith (a :: as) (b :: bs) = (a = b && beginsWith as bs) from rfl,
        Bool.and_eq_true, decide_eq_true_eq, ih]
      constructor
      · rintro ⟨rfl, rest, rfl⟩
        exact ⟨rest, rfl⟩
      · rintro ⟨rest, h⟩
        injection h with h1 h2
        exact ⟨h1.symm, rest, h2⟩

theorem hasSubstring_iff {hay pat : List Char} :
    hasSubstring hay pat = true ↔ ∃ pre post, hay = pre ++ pat ++ post := by
  induction hay with
  | nil =>
    rw [show hasSubstring [] pat = pat.isEmpty from rfl]
    cases pat <;> simp
  | cons c rest ih =>
    rw [show hasSubstring (c :: rest) pat = (beginsWith pat (c :: rest) || hasSubstring rest pat)
        from rfl, Bool.or_eq_true, beginsWith_iff, ih]
    constructor
    · rintro (⟨post, h⟩ | ⟨pre, post, h⟩)
      · exact ⟨[], post, by simpa using h⟩
      · exact ⟨c :: pre, post, by simp [h]⟩
    · rintro ⟨pre, post, h⟩
      cases pre with
      | nil => exact Or.inl ⟨post, by simpa using h⟩
      | cons p ps =>
        right
        refine ⟨ps, post, ?_⟩
        have h2 := congrArg List.tail h
        simpa using h2

theorem reSearch_litRe (p s : List Char) :
    reSearch true (litRe p) s = hasSubstring (s.map Char.toLower) (p.map Char.toLower) := by
  rw [Bool.eq_iff_iff, reSearch_iff, hasSubstring_iff]
  constructor
  · rintro ⟨pre, mid, post, rfl, hm⟩
    refine ⟨pre.map Char.toLower, post.map Char.toLower, ?_⟩
    have hmid : mid.map Char.toLower = p.map Char.toLower :=
      eqCI_iff_map.mp (rmatch_litRe_iff.mp hm)
    simp [hmid]
  · rintro ⟨pre, post, h⟩
    rw [List.append_assoc, List.map_eq_append_iff] at h
    obtain ⟨l1, l23, rfl, -, h23⟩ := h
    rw [List.map_eq_append_iff] at h23
    obtain ⟨l2, l3, rfl, h2, -⟩ := h23
    refine ⟨l1, l2, l3, by rw [List.append_assoc], ?_⟩
    exact rmatch_litRe_iff.mpr (eqCI_iff_map.mpr h2)

/-- Outcome of compiling a search term that does not yield a regex:
`invalid` is a genuine `re.error` — pandas raises it out of `str.contains`
and nothing in the app catches it — while `unsupported` marks a pattern
construct outside the fragment this model embeds (anchors, backreferences,
lookarounds, inline flags, character-code escapes, possessive
quantifiers); the model asserts nothing about such terms. -/
inductive ReErr where
  | invalid : String → ReErr
  | unsupported : String → ReErr
deriving Repr, DecidableEq

/-- Ranges of the shorthand classes (ASCII approximations of the Unicode
sets Python uses by default, consistent with the ASCII case folding of the
rest of the model). -/
def digitItems : List (Char × Char) := [('0', '9')]
def wordItems : List (Char × Char) := [('a', 'z'), ('A', 'Z'), ('0', '9'), ('_', '_')]
def spaceItems : List (Char × Char) :=
  [(' ', ' '), ('\t', '\t'), ('\n', '\n'), ('\x0d', '\x0d'), ('\x0b', '\x0b'), ('\x0c', '\x0c')]

def asciiLetter (c : Char) : Bool := ('a' ≤ c && c ≤ 'z') || ('A' ≤ c && c ≤ 'Z')

/-- Meaning of the escape `\c` at pattern level: control-character and
shorthand-class escapes are translated, boundary/backreference/
character-code escapes are outside the fragment, an escaped ASCII letter
with no meaning raises `re.error` (as in Python), and any other escaped
character is that literal character. -/
def escAtomRe (c : Char) : Except ReErr Re :=
  if c = 'n' then .ok (.cls false [('\n', '\n')])
  else if c = 't' then .ok (.cls false [('\t', '\t')])
  else if c = 'r' then .ok (.cls false [('\x0d', '\x0d')])
  else if c = 'f' then .ok (.cls false [('\x0c', '\x0c')])
  else if c = 'v' then .ok (.cls false [('\x0b', '\x0b')])
  else if c = 'a' then .ok (.cls false [('\x07', '\x07')])
  else if c = '0' then .ok (.cls false [('\x00', '\x00')])
  else if c = 'd' then .ok (.cls false digitItems)
  else if c = 'D' then .ok (.cls true digitItems)
  else if c = 'w' then .ok (.cls false wordItems)
  else if c = 'W' then .ok (.cls true wordItems)
  else if c = 's' then .ok (.cls false spaceItems)
  else if c = 'S' then .ok (.cls true spaceItems)
  else if c = 'b' || c = 'B' || c = 'A' || c = 'Z' then .error (.unsupported "boundary escape")
  else if c = 'x' || c = 'u' || c = 'U' || c = 'N' then .error (.unsupported "character-code escape")
  else if '1' ≤ c && c ≤ '9' then .error (.unsupported "backreference")
  else if asciiLetter c then .error (.invalid ("bad escape \\" ++ String.mk [c]))
  else .ok (.cls false [(c, c)])

/-- One parsed member of a character set: a single character or a
shorthand class (which cannot bound a range). -/
inductive ClsAtom where
  | one : Char → ClsAtom
  | set : List (Char × Char) → ClsAtom

/-- Meaning of the escape `\c` inside a character set (where `\b` is a
backspace and digit escapes are octal, the latter outside the fragment). -/
def escClsAtom (c : Char) : Except ReErr ClsAtom :=
  if c = 'n' then .ok (.one '\n')
  else if c = 't' then .ok (.one '\t')
  else if c = 'r' then .ok (.one '\x0d')
  else if c = 'f' then .ok (.one '\x0c')
  else if c = 'v' then .ok (.one '\x0b')
  else if c = 'a' then .ok (.one '\x07')
  else if c = 'b' then .ok (.one '\x08')
  else if c = '0' then .ok (.one '\x00')
  else if c = 'd' then .ok (.set digitItems)
  else if c = 'w' then .ok (.set wordItems)
  else if c = 's' then .ok (.set spaceItems)
  else if c = 'D' || c = 'W' || c = 'S' then .error (.unsupported "negated shorthand in set")
  else if c = 'A' || c = 'B' || c = 'Z' then .error (.unsupported "boundary escape")
  else if c = 'x' || c = 'u' || c = 'U' || c = 'N' then .error (.unsupported "character-code escape")
  else if '1' ≤ c && c ≤ '9' then .error (.unsupported "octal escape")
  else if asciiLetter c then .error (.invalid ("bad escape \\" ++ String.mk [c]))
  else .ok (.one c)

/-- One member of a character set: an escape or a plain character. -/
def parseClsBody : List Char → Except ReErr (ClsAtom × List Char)
  | [] => .error (.invalid "unterminated character set")
  | c :: rest =>
    if c = '\\' then
      match rest with
      | [] => .error (.invalid "bad escape (end of pattern)")
      | c2 :: rest2 =>
        match escClsAtom c2 with
        | .ok a => .ok (a, rest2)
        | .error e => .error e
    else .ok (.one c, rest)

/-- Members of a character set up to the closing bracket, expanding
ranges, with Python `re`-faithful errors for an unterminated set and a
reversed range.  The fuel only bounds recursion depth; the top-level fuel
is larger than any chain of calls a pattern can produce. -/
def parseClsItems (fuel : Nat) (acc : List (Char × Char)) (cs : List Char) :
    Except ReErr (List (Char × Char) × List Char) :=
  match fuel with
  | 0 => .error (.unsupported "character set too large for the model")
  | Nat.succ f =>
    match cs with
    | [] => .error (.invalid "unterminated character set")
    | c :: rest =>
      if c = ']' then .ok (acc, rest)
      else
        match parseClsBody cs with
        | .error e => .error e
        | .ok (.set items, rest1) =>
          match rest1 with
          | '-' :: ']' :: rest2 => .ok (acc ++ items ++ [('-', '-')], rest2)
          | '-' :: _ :: _ => .error (.unsupported "range with shorthand endpoint")
          | _ => parseClsItems f (acc ++ items) rest1
        | .ok (.one c1, rest1) =>
          match rest1 with
          | '-' :: ']' :: rest2 => .ok (acc ++ [(c1, c1), ('-', '-')], rest2)
          | '-' :: [] => .error (.invalid "unterminated character set")
          | '-' :: cs2 =>
            match parseClsBody cs2 with
            | .error e => .error e
            | .ok (.set _, _) => .error (.unsupported "range with shorthand endpoint")
            | .ok (.one c2, rest2) =>
              if c2 < c1 then .error (.invalid "bad character range")
              else parseClsItems f (acc ++ [(c1, c2)]) rest2
          | _ => parseClsItems f (acc ++ [(c1, c1)]) rest1

/-- A character set after its opening bracket: optional negation, then a
leading `]` is a literal member. -/
def parseCls (fuel : Nat) (cs : List Char) : Except ReErr (Re × List Char) :=
  let negPair : Bool × List Char :=
    match cs with
    | '^' :: rest => (true, rest)
    | _ => (false, cs)
  let accPair : List (Char × Char) × List Char :=
    match negPair.2 with
    | ']' :: rest => ([(']', ']')], rest)
    | _ => ([], negPair.2)
  match parseClsItems fuel accPair.1 accPair.2 with
  | .error e => .error e
  | .ok (items, rest) => .ok (.cls negPair.1 items, rest)

/-- Numeric value of a digit run in a counted repeat. -/
def digitsToNat (ds : List Char) : Nat :=
  ds.foldl (fun a c => a * 10 + (c.toNat - 48)) 0

/-- A counted repeat after its opening brace, Python style: one of
m, m-comma, comma-n, m-comma-n followed by the closing brace; any other
shape makes the brace a literal character (hence `Option.none` here). -/
def parseRepeatSpec (cs : List Char) : Option (Nat × Option Nat × List Char) :=
  let p1 := cs.span Char.isDigit
  match p1.2 with
  | '\x7d' :: rest =>
    if p1.1 = [] then Option.none
    else some (digitsToNat p1.1, some (digitsToNat p1.1), rest)
  | ',' :: r2 =>
    let p2 := r2.span Char.isDigit
    match p2.2 with
    | '\x7d' :: rest =>
      if p1.1 = [] ∧ p2.1 = [] then Option.none
      else some (digitsToNat p1.1,
        (if p2.1 = [] then Option.none else some (digitsToNat p2.1)), rest)
    | _ => Option.none
  | _ => Option.none

/-- Exactly `n` copies of a regex. -/
def repExact : Nat → Re → Re
  | 0, _ => .eps
  | Nat.succ k, a => .seq a (repExact k a)

/-- At most `n` copies of a regex. -/
def repUpTo : Nat → Re → Re
  | 0, _ => .eps
  | Nat.succ k, a => .alt .eps (.seq a (repUpTo k a))

/-- Elaboration of a counted repeat, raising Python's `re.error` when the
minimum exceeds the maximum. -/
def applyRepeat (a : Re) (m : Nat) (mx : Option Nat) : Except ReErr Re :=
  match mx with
  | Option.none => .ok (.seq (repExact m a) (.star a))
  | some n =>
    if n < m then .error (.invalid "min repeat greater than max repeat")
    else .ok (.seq (repExact m a) (repUpTo (n - m) a))

/-- The three one-character quantifiers. -/
def isQuantChar (c : Char) : Bool := c = '*' || c = '+' || c = '?'

/-- Elaboration of a one-character quantifier.  Greedy and lazy variants
match the same sets of strings, so the boolean search result is shared. -/
def applyQuant (a : Re) (q : Char) : Re :=
  if q = '*' then .star a
  else if q = '+' then .seq a (.star a)
  else .alt .eps a

/-- A quantifier directly following another is the `multiple repeat`
`re.error`. -/
def checkNoMoreQuant (cs : List Char) : Except ReErr (List Char) :=
  match cs with
  | [] => .ok []
  | c :: rest =>
    if isQuantChar c then .error (.invalid "multiple repeat")
    else if c = '\x7b' ∧ (parseRepeatSpec rest).isSome then .error (.invalid "multiple repeat")
    else .ok cs

/-- After a quantifier: an optional lazy marker; a possessive marker is
outside the fragment (its validity depends on the Python version). -/
def afterQuant (cs : List Char) : Except ReErr (List Char) :=
  match cs with
  | [] => .ok []
  | c :: rest =>
    if c = '?' then checkNoMoreQuant rest
    else if c = '+' then .error (.unsupported "possessive quantifier")
    else checkNoMoreQuant cs

/-- Optional quantifier or counted repeat after an atom; a brace that is
not a valid repeat belongs to the next atom as a literal. -/
def quantTail (a : Re) (cs : List Char) : Except ReErr (Re × List Char) :=
  match cs with
  | [] => .ok (a, [])
  | q :: rest =>
    if isQuantChar q then
      match afterQuant rest with
      | .error e => .error e
      | .ok rest2 => .ok (applyQuant a q, rest2)
    else if q = '\x7b' then
      match parseRepeatSpec rest with
      | Option.none => .ok (a, cs)
      | some (m, mx, rest2) =>
        match applyRepeat a m mx with
        | .error e => .error e
        | .ok a2 =>
          match afterQuant rest2 with
          | .error e => .error e
          | .ok rest3 => .ok (a2, rest3)
    else .ok (a, cs)

mutual

/-- Alternation level of the pattern grammar. -/
def parseAlt (fuel : Nat) (cs : List Char) : Except ReErr (Re × List Char) :=
  match fuel with
  | 0 => .error (.unsupported "pattern too large for the model")
  | Nat.succ f =>
    match parseSeq f cs with
    | .error e => .error e
    | .ok (a, rest) =>
      match rest with
      | '|' :: rest2 =>
        match parseAlt f rest2 with
        | .error e => .error e
        | .ok (b, rest3) => .ok (.alt a b, rest3)
      | _ => .ok (a, rest)

/-- Concatenation level: stops at the end of input, an alternation bar or
a closing parenthesis; a leading quantifier or valid counted repeat is the
`nothing to repeat` `re.error`. -/
def parseSeq (fuel : Nat) (cs : List Char) : Except ReErr (Re × List Char) :=
  match fuel with
  | 0 => .error (.unsupported "pattern too large for the model")
  | Nat.succ f =>
    match cs with
    | [] => .ok (.eps, [])
    | c :: rest =>
      if c = '|' then .ok (.eps, cs)
      else if c = ')' then .ok (.eps, cs)
      else if isQuantChar c then .error (.invalid "nothing to repeat")
      else if c = '\x7b' ∧ (parseRepeatSpec rest).isSome then .error (.invalid "nothing to repeat")
      else
        match parseAtom f cs with
        | .error e => .error e
        | .ok (a, rest1) =>
          match quantTail a rest1 with
          | .error e => .error e
          | .ok (a2, rest2) =>
            match parseSeq f rest2 with
            | .error e => .error e
            | .ok (b, rest3) => .ok (.seq a2 b, rest3)

/-- One atom: a group (plain or non-capturing; other extensions are
outside the fragment, and an unknown extension is Python's
`unknown extension` error), a character set, an escape, the wildcard dot,
or a literal character; anchors are outside the fragment. -/
def parseAtom (fuel : Nat) (cs : List Char) : Except ReErr (Re × List Char) :=
  match fuel with
  | 0 => .error (.unsupported "pattern too large for the model")
  | Nat.succ f =>
    match cs with
    | [] => .error (.invalid "unexpected end of pattern")
    | c :: rest =>
      if c = '(' then
        match rest with
        | '?' :: ':' :: rest2 => parseGroupTail f rest2
        | '?' :: x :: _ =>
          if x = '=' || x = '!' || x = '<' || x = 'P' || x = '#' || x = '-' ||
              x = 'a' || x = 'i' || x = 'L' || x = 'm' || x = 's' || x = 'u' || x = 'x' then
            .error (.unsupported "regex extension")
          else .error (.invalid "unknown extension")
        | '?' :: [] => .error (.invalid "unexpected end of pattern")
        | _ => parseGroupTail f rest
      else if c = '[' then parseCls f rest
      else if c = '\\' then
        match rest with
        | [] => .error (.invalid "bad escape (end of pattern)")
        | c2 :: rest2 =>
          match escAtomRe c2 with
          | .error e => .error e
          | .ok r => .ok (r, rest2)
      else if c = '.' then .ok (.cls true [('\n', '\n')], rest)
      else if c = '^' then .error (.unsupported "anchor")
      else if c = '$' then .error (.unsupported "anchor")
      else .ok (.cls false [(c, c)], rest)

/-- Body of a group up to its closing parenthesis, whose absence is the
`missing ), unterminated subpattern` error. -/
def parseGroupTail (fuel : Nat) (cs : List Char) : Except ReErr (Re × List Char) :=
  match fuel with
  | 0 => .error (.unsupported "pattern too large for the model")
  | Nat.succ f =>
    match parseAlt f cs with
    | .error e => .error e
    | .ok (inner, rest) =>
      match rest with
      | ')' :: rest2 => .ok (inner, rest2)
      | _ => .error (.invalid "missing ), unterminated subpattern")

end

/-- Embedding of `re.compile(term, re.IGNORECASE)` as the pandas mask
construction performs it on the user's search term: the parsed regex, or
an `invalid` outcome for the patterns Python rejects with `re.error`
(which then propagates uncaught out of the query block), or `unsupported`
for terms using constructs outside the embedded fragment.  Leftover input
after the alternation level can only be a stray closing parenthesis.  The
fuel exceeds any possible chain of parser calls for the input, so it is
never exhausted on reachable inputs. -/
def compileTerm (t : String) : Except ReErr Re :=
  match parseAlt (4 * t.data.length + 8) t.data with
  | .error e => .error e
  | .ok (r, []) => .ok r
  | .ok (_, _) => .error (.invalid "unbalanced parenthesis")

/-- Characters with (potential) special meaning in a pattern.  A term free
of them compiles to `litRe` of its characters, and searching with it is
exactly case-insensitive substring containment (`reSearch_litRe`). -/
def regexSpecial (c : Char) : Bool :=
  c = '.' || c = '^' || c = '$' || c = '*' || c = '+' || c = '?' ||
    c = '\x7b' || c = '\x7d' || c = '[' || c = ']' || c = '\\' || c = '|' ||
    c = '(' || c = ')'

/-- Search terms free of regex metacharacters: on these, the source's
regex-based mask coincides with case-insensitive substring search. -/
def regexLiteral (t : String) : Bool := !t.data.any regexSpecial

theorem regexSpecial_ne {c x : Char} (h : regexSpecial c = false)
    (hx : regexSpecial x = true) : ¬(c = x) := by
  intro he
  rw [he, hx] at h
  cases h

theorem isQuantChar_eq_false {c : Char} (h : regexSpecial c = false) :
    isQuantChar c = false := by
  cases hq : isQuantChar c with
  | false => rfl
  | true =>
    exfalso
    simp only [isQuantChar, Bool.or_eq_true, decide_eq_true_eq] at hq
    rcases hq with (rfl | rfl) | rfl <;> simp [regexSpecial] at h

theorem quantTail_literal (a : Re) (cs : List Char)
    (h : ∀ c ∈ cs, regexSpecial c = false) : quantTail a cs = .ok (a, cs) := by
  cases cs with
  | nil => rfl
  | cons q rest =>
    have hq : regexSpecial q = false := h q (by simp)
    have h1 : isQuantChar q = false := isQuantChar_eq_false hq
    have h2 : ¬(q = '\x7b') := regexSpecial_ne hq (by decide)
    simp only [quantTail, h1, Bool.false_eq_true, if_false]
    rw [if_neg h2]

theorem parseSeq_step (f : Nat) (c : Char) (rest : List Char) :
    parseSeq (Nat.succ f) (c :: rest) =
      (if c = '|' then .ok (.eps, c :: rest)
       else if c = ')' then .ok (.eps, c :: rest)
       else if isQuantChar c then .error (.invalid "nothing to repeat")
       else if c = '\x7b' ∧ (parseRepeatSpec rest).isSome then
         .error (.invalid "nothing to repeat")
       else
         match parseAtom f (c :: rest) with
         | .error e => .error e
         | .ok (a, rest1) =>
           match quantTail a rest1 with
           | .error e => .error e
           | .ok (a2, rest2) =>
             match parseSeq f rest2 with
             | .error e => .error e
             | .ok (b, rest3) => .ok (.seq a2 b, rest3)) := rfl

theorem parseAtom_step (f : Nat) (c : Char) (rest : List Char) :
    parseAtom (Nat.succ f) (c :: rest) =
      (if c = '(' then
        match rest with
        | '?' :: ':' :: rest2 => parseGroupTail f rest2
        | '?' :: x :: _ =>
          if x = '=' || x = '!' || x = '<' || x = 'P' || x = '#' || x = '-' ||
              x = 'a' || x = 'i' || x = 'L' || x = 'm' || x = 's' || x = 'u' || x = 'x' then
            .error (.unsupported "regex extension")
          else .error (.invalid "unknown extension")
        | '?' :: [] => .error (.invalid "unexpected end of pattern")
        | _ => parseGroupTail f rest
      else if c = '[' then parseCls f rest
      else if c = '\\' then
        match rest with
        | [] => .error (.invalid "bad escape (end of pattern)")
        | c2 :: rest2 =>
          match escAtomRe c2 with
          | .error e => .error e
          | .ok r => .ok (r, rest2)
      else if c = '.' then .ok (.cls true [('\n', '\n')], rest)
      else if c = '^' then .error (.unsupported "anchor")
      else if c = '$' then .error (.unsupported "anchor")
      else .ok (.cls false [(c, c)], rest)) := rfl

theorem parseSeq_literal (cs : List Char) : ∀ f, (∀ c ∈ cs, regexSpecial c = false) →
    cs.length < f → parseSeq f cs = .ok (litRe cs, []) := by
  induction cs with
  | nil =>
    intro f _ hf
    cases f with
    | zero => omega
    | succ f2 => rfl
  | cons c rest ih =>
    intro f hspec hf
    cases f with
    | zero => omega
    | succ f2 =>
      have hc : regexSpecial c = false := hspec c (by simp)
      have hrest : ∀ x ∈ rest, regexSpecial x = false := fun x hx => hspec x (by simp [hx])
      have hne : ∀ x : Char, regexSpecial x = true → ¬(c = x) := fun x hx => regexSpecial_ne hc hx
      cases f2 with
      | zero => simp at hf
      | succ f3 =>
        rw [parseSeq_step]
        rw [if_neg (hne '|' (by decide)), if_neg (hne ')' (by decide))]
        rw [show isQuantChar c = false from isQuantChar_eq_false hc]
        simp only [Bool.false_eq_true, if_false]
        rw [if_neg (fun hand => (hne '\x7b' (by decide)) hand.1)]
        rw [parseAtom_step]
        rw [if_neg (hne '(' (by decide)), if_neg (hne '[' (by decide)),
          if_neg (hne '\\' (by decide)), if_neg (hne '.' (by decide)),
          if_neg (hne '^' (by decide)), if_neg (hne '$' (by decide))]
        have hq := quantTail_literal (Re.cls false [(c, c)]) rest hrest
        have hih := ih (Nat.succ f3) hrest (by simp at hf ⊢; omega)
        simp only [hq, hih]
        rfl

theorem parseAlt_literal (cs : List Char) (f : Nat)
    (h : ∀ c ∈ cs, regexSpecial c = false) (hf : cs.length + 1 < f) :
    parseAlt f cs = .ok (litRe cs, []) := by
  cases f with
  | zero => omega
  | succ f2 =>
    have hstep : parseAlt (Nat.succ f2) cs =
        (match parseSeq f2 cs with
         | .error e => .error e
         | .ok (a, rest) =>
           match rest with
           | '|' :: rest2 =>
             match parseAlt f2 rest2 with
             | .error e => .error e
             | .ok (b, rest3) => .ok (.alt a b, rest3)
           | _ => .ok (a, rest)) := rfl
    rw [hstep, parseSeq_literal cs f2 h (by omega)]

theorem compileTerm_literal (t : String) (h : regexLiteral t = true) :
    compileTerm t = .ok (litRe t.data) := by
  have hall : ∀ c ∈ t.data, regexSpecial c = false := by
    rw [regexLiteral, Bool.not_eq_true'] at h
    intro c hc
    simpa using List.any_eq_false.mp h c hc
  rw [compileTerm, parseAlt_literal t.data _ hall (by omega)]

/-- Python `x in container`: membership by equality in a list or exotic
iterable, substring test in a string (raising when the left operand is not
a string), key membership in a dict (raising on an unhashable left
operand), and `TypeError` on non-iterable containers. -/
def pyIn (x container : Val) : Except String Bool :=
  match container with
  | .list xs => .ok (xs.contains x)
  | .str s =>
    match x with
    | .str sub => .ok (hasSubstring s.data sub.data)
    | _ => .error "TypeError: in <string> requires string as left operand"
  | .dict kvs =>
    match x with
    | .list _ => .error "TypeError: unhashable type: list"
    | .dict _ => .error "TypeError: unhashable type: dict"
    | _ => .ok (kvs.any (fun kv => x == Val.str kv.1))
  | .other (some xs) => .ok (xs.contains x)
  | .other Option.none => .error "TypeError: argument of type object is not iterable"
  | _ => .error "TypeError: argument is not iterable"

/-- Python dict lookup `d.get(key, default)`: the first binding of the key,
or the default. -/
def dictGet (kvs : List (String × Val)) (key : String) (dflt : Val) : Val :=
  match kvs.find? (fun kv => kv.1 = key) with
  | some kv => kv.2
  | Option.none => dflt

/-! ## The normalizer (src/app.py lines 85-102) -/

/-- The string arm of `normalize_codes`:
`[c.strip() for c in x.split(",") if c.strip()]` — split on commas, strip
each piece, keep the non-empty stripped pieces, in order. -/
def stringToCodes (s : String) : List Val :=
  (((splitComma s.data).map stripChars).filter (fun cs => cs ≠ [])).map
    (fun cs => Val.str (String.mk cs))

/-- Embedding of `normalize_codes` (src/app.py lines 85-97): a list is
returned as-is; a string is comma-split, stripped and filtered; a
missing/null value (`pd.isna`) gives `[]`; anything else is coerced with
`list(x)`, the `except Exception` arm turning a failed coercion into `[]`. -/
def normalize_codes (x : Val) : List Val :=
  match x with
  | .list xs => xs
  | .str s => stringToCodes s
  | _ =>
    if pd_isna x then []
    else
      match pyList x with
      | .ok xs => xs
      | .error _ => []

/-- Rendering of `normalize_codes` in the exception monad: every step the
source performs that can raise sits to the left of a handler, so the
function as a whole yields `Except.ok`.  The only fallible primitive in
its body, the coercion `list(x)`, is wrapped by the source's
`try/except Exception: return []`. -/
def normalize_codesE (x : Val) : Except String (List Val) :=
  match x with
  | .list xs => Except.ok xs
  | .str s => Except.ok (stringToCodes s)
  | _ =>
    if pd_isna x then Except.ok []
    else
      match pyList x with
      | .ok xs => Except.ok xs
      | .error _ => Except.ok []

/-! ## The opening-hours formatter (src/app.py lines 120-153) -/

/-- Python `f"{n:02d}"`: decimal rendering left-padded with zeros to width
two. -/
def pad2 (n : Int) : String :=
  if 0 ≤ n ∧ n < 10 then "0" ++ toString n else toString n

/-- Python `x or y` specialised to the `or 0` the formatter applies to the
minute fields. -/
def orZero (v : Val) : Val :=
  if truthy v then v else Val.int 0

/-- One iteration of the per-day loop of `format_opening_hours`
(src/app.py lines 128-147): `Option.none` is the `continue` outcome — a
non-dict entry, an entry with `openingHour` or `closingHour` missing/None,
or an `int()` conversion raising inside the loop's `try` (caught by its
`except Exception: continue`). -/
def renderEntry (entry : Val) : Option String :=
  match entry with
  | .dict kvs =>
    let day := dictGet kvs "day" (.str "")
    let open_h := dictGet kvs "openingHour" .none
    let open_m := dictGet kvs "openingMinute" (.int 0)
    let close_h := dictGet kvs "closingHour" .none
    let close_m := dictGet kvs "closingMinute" (.int 0)
    if open_h = .none ∨ close_h = .none then Option.none
    else
      match pyInt open_h, pyInt (orZero open_m), pyInt close_h, pyInt (orZero close_m) with
      | .ok oh, .ok om, .ok ch, .ok cm =>
        let open_time := pad2 oh ++ ":" ++ pad2 om
        let close_time := pad2 ch ++ ":" ++ pad2 cm
        if truthy day then some (pyStr day ++ ": " ++ open_time ++ "–" ++ close_time)
        else some (open_time ++ "–" ++ close_time)
      | _, _, _, _ => Option.none
  | _ => Option.none

/-- Embedding of `format_opening_hours` (src/app.py lines 120-153): falsy
input gives `"N/A"`, a string is returned unchanged, a list is rendered
day by day (skipped entries contributing nothing, an empty rendering
giving `"N/A"`), and any other value falls through to `str(...)`. -/
def format_opening_hours (raw : Val) : String :=
  if !truthy raw then "N/A"
  else
    match raw with
    | .str s => s
    | .list entries =>
      let hours_list := entries.filterMap renderEntry
      if hours_list.isEmpty then "N/A"
      else String.intercalate ", " hours_list
    | v => pyStr v

/-! ## Records, tables and the fetch + normalize cycle
(src/app.py lines 62-108) -/

/-- A raw upstream record: one JSON object of an upstream response. -/
abbrev RawRecord := List (String × Val)

/-- A cell of the DataFrame built from raw records: the record's value at
the column's key, or the `NaN` pandas fills in when the record lacks the
key. -/
def getField (r : RawRecord) (key : String) : Val :=
  match r.find? (fun kv => kv.1 == key) with
  | some kv => kv.2
  | Option.none => .nan

/-- A normalized product row: upstream `code` renamed to `product_code`,
`detail` to `product_name` (src/app.py lines 71-74). -/
structure Product where
  product_code : Val
  product_name : Val
deriving DecidableEq, Repr

/-- A normalized branch row: upstream `name`, `manager`, `postalAddress`,
`openingTimes`, `productCodes` renamed (src/app.py lines 76-82), with
`product_codes` already passed through `normalize_codes`. -/
structure Branch where
  branch_name : Val
  branch_manager : Val
  address : Val
  opening_hours : Val
  product_codes : List Val
deriving DecidableEq, Repr

/-- The normalized in-memory snapshot both queries run against. -/
structure Snapshot where
  products : List Product
  branches : List Branch
deriving DecidableEq, Repr

def normalizeProducts (rows : List RawRecord) : List Product :=
  rows.map (fun r => { product_code := getField r "code", product_name := getField r "detail" })

/-- Whether the branch DataFrame has a `product_codes` column at all: pandas
creates a column exactly when some record carries the key
(src/app.py line 99 checks `"product_codes" in df_branches.columns`). -/
def hasCodesField (rows : List RawRecord) : Bool :=
  rows.any (fun r => r.any (fun kv => kv.1 == "productCodes"))

def normalizeBranch (withCodes : Bool) (r : RawRecord) : Branch :=
  { branch_name := getField r "name"
    branch_manager := getField r "manager"
    address := getField r "postalAddress"
    opening_hours := getField r "openingTimes"
    product_codes := if withCodes then normalize_codes (getField r "productCodes") else [] }

/-- The branch half of the normalizer: when the column exists every cell
goes through `normalize_codes` (src/app.py line 100), otherwise every
branch receives `[]` (line 102). -/
def normalizeBranches (rows : List RawRecord) : List Branch :=
  rows.map (normalizeBranch (hasCodesField rows))

def isDictVal : Val → Bool
  | .dict _ => true
  | _ => false

def asRecord : Val → RawRecord
  | .dict kvs => kvs
  | _ => []

/-- Embedding of `pd.DataFrame(payload)` on an upstream JSON payload for
the tabular shape the app consumes — a sequence of records; any other
payload counts as data that cannot be parsed into tabular records and
raises. -/
def toRecords : Val → Except String (List RawRecord)
  | .list xs =>
    if xs.all isDictVal then .ok (xs.map asRecord)
    else .error "ValueError: cannot parse data into tabular records"
  | _ => .error "ValueError: cannot parse data into tabular records"

/-- The outcome of one fetch + normalize cycle: the two collections and
the error messages the cycle reported through `st.error`. -/
structure FetchResult where
  products : List Product
  branches : List Branch
  errors : List String
deriving Repr

/-- Embedding of `fetch_data` (src/app.py lines 62-108).  Its two inputs
are the outcomes of `requests.get(...).json()` for the two upstream
sources (`Except.error` = unreachable source or undecodable body).  The
source's single `try/except Exception` wraps both fetches, both DataFrame
constructions and the normalization; any failure reaches the one handler,
which reports one `st.error` message and returns two empty collections. -/
def fetch_data (productsResp branchesResp : Except String Val) : FetchResult :=
  let cycle : Except String (List Product × List Branch) :=
    Except.bind productsResp (fun productsJson =>
      Except.bind branchesResp (fun branchesJson =>
        Except.bind (toRecords productsJson) (fun productRows =>
          Except.bind (toRecords branchesJson) (fun branchRows =>
            Except.ok (normalizeProducts productRows, normalizeBranches branchRows)))))
  match cycle with
  | .ok (ps, bs) => { products := ps, branches := bs, errors := [] }
  | .error e => { products := [], branches := [], errors := ["Error fetching data: " ++ toString e] }

/-! ## The query engine (src/app.py lines 169-241) -/

/-- Outcome of building a match mask from the user's search term:
`raised m` stands for an exception the script does not catch (the
`re.error` pandas raises out of `str.contains` for an invalid pattern, or
the `TypeError` pandas `isin` raises on an unhashable value), and
`outsideModel` for a term using regex constructs outside the embedded
fragment, about which the model asserts nothing. -/
inductive QueryErr where
  | raised : String → QueryErr
  | outsideModel : String → QueryErr
deriving Repr, DecidableEq

/-- The compilation of the user's search term that both query blocks
perform inside `str.contains(term, case=False)`. -/
def compileTermQ (t : String) : Except QueryErr Re :=
  match compileTerm t with
  | .ok r => .ok r
  | .error (ReErr.invalid m) => .error (.raised ("re.error: " ++ m))
  | .error (ReErr.unsupported w) => .error (.outsideModel w)

/-- One cell of the match mask
`series.astype(str).str.contains(term, case=False, na=False)`: the cell's
value is stringified (so a pandas `NaN` cell participates as the text
`"nan"`), then searched with the compiled term.  After `astype(str)` no
cell is null, so the `na=False` arm never fires, and the per-cell test is
total — the mask's only exception is the `re.error` at compile time. -/
def strContainsCell (r : Re) (v : Val) : Bool :=
  reSearch true r (pyStr v).data

/-- The product mask of the Product → Branches query (src/app.py lines
173-176): `product_name` matches or `product_code` matches. -/
def productMaskHit (r : Re) (p : Product) : Bool :=
  strContainsCell r p.product_name || strContainsCell r p.product_code

/-- Embedding of `branch_has_code` (src/app.py lines 186-190): Python
`product_code in codes`, with any exception of the membership test caught
and turned into `False`. -/
def branch_has_code (product_code codes : Val) : Bool :=
  match pyIn product_code codes with
  | .ok b => b
  | .error _ => false

/-- Embedding of the Product → Branches search block (src/app.py lines
172-192): compile the term (an invalid regex raises out of the block),
filter the products by the mask, and pair each matched product with the
branches whose (normalized) `product_codes` cell passes `branch_has_code`
for that product's code.  Nothing after compilation can raise: the mask is
total and `branch_has_code` catches its own exceptions. -/
def searchByProductE (term : String) (snap : Snapshot) :
    Except QueryErr (List (Product × List Branch)) :=
  match compileTermQ term with
  | .error e => .error e
  | .ok r =>
    .ok ((snap.products.filter (productMaskHit r)).map
      (fun p => (p, snap.branches.filter
        (fun b => branch_has_code p.product_code (Val.list b.product_codes)))))

/-- The rows the Product → Branches block displays: its result list when
the block does not raise; the empty list stands for an interaction aborted
by `re.error`, or for a term outside the modeled fragment. -/
def searchByProduct (term : String) (snap : Snapshot) : List (Product × List Branch) :=
  match searchByProductE term snap with
  | .ok results => results
  | .error _ => []

/-- The branch mask of the Branch → Products query (src/app.py lines
216-218). -/
def branchMaskHit (r : Re) (b : Branch) : Bool :=
  strContainsCell r b.branch_name

/-- Values Python can hash: pandas `isin` builds a hash table from the
values it is given, so a sequence or mapping among them raises
`TypeError`.  (A normalized `product_codes` can contain such elements,
since a raw sequence passes through normalization unchanged.) -/
def hashableVal : Val → Bool
  | .list _ => false
  | .dict _ => false
  | _ => true

/-- The products listed for one matched branch (src/app.py lines 228-229):
`branch_products = branch_row.get("product_codes") or []`, then
`df_products[df_products["product_code"].isin(branch_products)]`.  The
`isin` hashes both the passed values and the `product_code` cells —
an unhashable value on either side raises `TypeError` — and otherwise
keeps the products whose code is a member by value equality. -/
def branchProductsE (snap : Snapshot) (b : Branch) : Except String (List Product) :=
  let branch_products := if truthy (Val.list b.product_codes) then b.product_codes else []
  if branch_products.all hashableVal && (snap.products.map Product.product_code).all hashableVal
  then Except.ok (snap.products.filter (fun p => branch_products.contains p.product_code))
  else Except.error "TypeError: unhashable type"

/-- The per-branch loop of the Branch → Products block: the first branch
whose `isin` raises aborts the whole interaction. -/
def pairProducts (snap : Snapshot) : List Branch → Except String (List (Branch × List Product))
  | [] => .ok []
  | b :: bs =>
    match branchProductsE snap b with
    | .error e => .error e
    | .ok ps =>
      match pairProducts snap bs with
      | .error e => .error e
      | .ok rest => .ok ((b, ps) :: rest)

/-- Embedding of the Branch → Products search block (src/app.py lines
215-229): compile the term, filter the branches by the name mask, then
pair each matched branch with its products, any `isin` exception aborting
the block. -/
def searchByBranchE (term : String) (snap : Snapshot) :
    Except QueryErr (List (Branch × List Product)) :=
  match compileTermQ term with
  | .error e => .error e
  | .ok r =>
    match pairProducts snap (snap.branches.filter (branchMaskHit r)) with
    | .error m => .error (.raised m)
    | .ok results => .ok results

/-- The rows the Branch → Products block displays when it does not raise;
the empty list stands for an aborted interaction or a term outside the
modeled fragment. -/
def searchByBranch (term : String) (snap : Snapshot) : List (Branch × List Product) :=
  match searchByBranchE term snap with
  | .ok results => results
  | .error _ => []

/-- Snapshots whose product codes are all hashable — on these the
`isin` of the Branch → Products block cannot raise. -/
def snapHashable (snap : Snapshot) : Bool :=
  (snap.products.map Product.product_code).all hashableVal &&
    snap.branches.all (fun b => b.product_codes.all hashableVal)

/-- Whether a value is a Python string. -/
def Val.isStr : Val → Bool
  | .str _ => true
  | _ => false

/-- The field-level match predicate exactly as claims C1 and C2 word it: a
missing/null field value is treated as non-matching (not an error), a
string field matches iff it contains the term as a case-insensitive
substring.  Written from the claims' words, to be compared with the
source's stringify-then-regex-search mask. -/
def specFieldMatches (term : String) : Val → Bool
  | Val.none => false
  | Val.nan => false
  | Val.str s => containsCI s term
  | v => containsCI (pyStr v) term

/-! ## Characterization lemmas for the query engine -/

theorem branch_has_code_list (v : Val) (xs : List Val) :
    branch_has_code v (Val.list xs) = xs.contains v := rfl

theorem get_or_empty (codes : List Val) :
    (if truthy (Val.list codes) then codes else []) = codes := by
  cases codes <;> simp [truthy]

theorem reSearch_litRe_cell (term : String) (v : Val) :
    strContainsCell (litRe term.data) v = containsCI (pyStr v) term :=
  reSearch_litRe term.data (pyStr v).data

theorem searchByProduct_ok {term : String} {snap : Snapshot} {r : Re}
    (h : compileTerm term = Except.ok r) :
    searchByProduct term snap =
      (snap.products.filter (productMaskHit r)).map
        (fun p => (p, snap.branches.filter
          (fun b => branch_has_code p.product_code (Val.list b.product_codes)))) := by
  simp [searchByProduct, searchByProductE, compileTermQ, h]

theorem mem_searchByProduct (term : String) (snap : Snapshot) (p : Product) (bs : List Branch) :
    (p, bs) ∈ searchByProduct term snap ↔
      ∃ r, compileTerm term = Except.ok r ∧ p ∈ snap.products ∧ productMaskHit r p = true ∧
        bs = snap.branches.filter
          (fun b => branch_has_code p.product_code (Val.list b.product_codes)) := by
  cases h : compileTerm term with
  | error e => cases e <;> simp [searchByProduct, searchByProductE, compileTermQ, h]
  | ok r =>
    rw [searchByProduct_ok h]
    simp only [List.mem_map, List.mem_filter, Prod.mk.injEq, h, Except.ok.injEq]
    constructor
    · rintro ⟨q, ⟨hq, hm⟩, hq1, hq2⟩
      subst hq1
      exact ⟨r, rfl, hq, hm, hq2.symm⟩
    · rintro ⟨r2, hr2, hq, hm, hbs⟩
      subst hr2
      exact ⟨p, ⟨hq, hm⟩, rfl, hbs.symm⟩

theorem branchProductsE_ok {snap : Snapshot} {b : Branch} {ps : List Product}
    (h : branchProductsE snap b = Except.ok ps) :
    ps = snap.products.filter (fun p => b.product_codes.contains p.product_code) := by
  rw [branchProductsE] at h
  simp only [get_or_empty] at h
  split at h
  · injection h with h2
    exact h2.symm
  · exact Except.noConfusion h

theorem branchProductsE_ok_of_hashable {snap : Snapshot} {b : Branch}
    (h : snapHashable snap = true) (hb : b ∈ snap.branches) :
    branchProductsE snap b =
      Except.ok (snap.products.filter (fun p => b.product_codes.contains p.product_code)) := by
  rw [snapHashable, Bool.and_eq_true] at h
  have hcodes : b.product_codes.all hashableVal = true :=
    List.all_eq_true.mp h.2 b hb
  rw [branchProductsE]
  simp only [get_or_empty]
  rw [if_pos]
  rw [hcodes, h.1]
  rfl

theorem pairProducts_mem {snap : Snapshot} :
    ∀ {bs : List Branch} {results : List (Branch × List Product)},
      pairProducts snap bs = Except.ok results →
        results.map Prod.fst = bs ∧
        ∀ b ps, (b, ps) ∈ results →
          ps = snap.products.filter (fun p => b.product_codes.contains p.product_code) := by
  intro bs
  induction bs with
  | nil =>
    intro results h
    injection h with h2
    subst h2
    exact ⟨rfl, by simp⟩
  | cons b bs ih =>
    intro results h
    rw [pairProducts] at h
    cases h1 : branchProductsE snap b with
    | error e => rw [h1] at h; exact Except.noConfusion h
    | ok ps0 =>
      rw [h1] at h
      cases h2 : pairProducts snap bs with
      | error e => rw [h2] at h; exact Except.noConfusion h
      | ok rest =>
        rw [h2] at h
        injection h with h3
        subst h3
        obtain ⟨hfst, hmem⟩ := ih h2
        refine ⟨by simp [hfst], ?_⟩
        intro b2 ps2 hm
        rcases List.mem_cons.mp hm with heq | htail
        · injection heq with he1 he2
          subst he1
          subst he2
          exact branchProductsE_ok h1
        · exact hmem b2 ps2 htail

theorem pairProducts_of_hashable {snap : Snapshot} (h : snapHashable snap = true) :
    ∀ bs : List Branch, (∀ b ∈ bs, b ∈ snap.branches) →
      pairProducts snap bs = Except.ok (bs.map (fun b =>
        (b, snap.products.filter (fun p => b.product_codes.contains p.product_code)))) := by
  intro bs
  induction bs with
  | nil => intro; rfl
  | cons b bs ih =>
    intro hsub
    rw [pairProducts, branchProductsE_ok_of_hashable h (hsub b (by simp)),
      ih (fun x hx => hsub x (by simp [hx]))]
    rfl

theorem searchByBranch_of_hashable {term : String} {snap : Snapshot} {r : Re}
    (hc : compileTerm term = Except.ok r) (h : snapHashable snap = true) :
    searchByBranch term snap =
      (snap.branches.filter (branchMaskHit r)).map (fun b =>
        (b, snap.products.filter (fun p => b.product_codes.contains p.product_code))) := by
  have hp := pairProducts_of_hashable h (snap.branches.filter (branchMaskHit r))
    (fun b hb => (List.mem_filter.mp hb).1)
  simp [searchByBranch, searchByBranchE, compileTermQ, hc, hp]

/-! ## Claim theorems -/

/-- Claim C3: `normalize_codes` satisfies the four-way case analysis — a
sequence is returned unchanged in order; a string is comma-split with
surrounding whitespace trimmed and empty pieces dropped, in order (so
`"A, B ,,C"` gives `["A","B","C"]`); null/absent input gives the empty
sequence; any other input gives the result of the generic sequence
coercion `list(x)`, or the empty sequence when that coercion fails. -/
theorem c3_normalize_codes_case_analysis :
    (∀ xs, normalize_codes (Val.list xs) = xs) ∧
    (∀ s, normalize_codes (Val.str s) =
        (((splitComma s.data).map stripChars).filter (fun cs => cs ≠ [])).map
          (fun cs => Val.str (String.mk cs))) ∧
    (normalize_codes (Val.str "A, B ,,C") = [Val.str "A", Val.str "B", Val.str "C"]) ∧
    (normalize_codes Val.none = [] ∧ normalize_codes Val.nan = []) ∧
    (∀ v, (∀ xs, v ≠ Val.list xs) → (∀ s, v ≠ Val.str s) → pd_isna v = false →
        normalize_codes v = (match pyList v with | .ok xs => xs | .error _ => [])) := by
  refine ⟨fun xs => rfl, fun s => rfl, by decide, ⟨rfl, rfl⟩, ?_⟩
  intro v hl hs hn
  cases v with
  | list xs => exact absurd rfl (hl xs)
  | str s => exact absurd rfl (hs s)
  | none => simp [pd_isna] at hn
  | nan => simp [pd_isna] at hn
  | int n => rfl
  | dict kvs => rfl
  | other o => cases o <;> rfl

/-- Claim C4: `normalize_codes` is total and never raises.  The first
conjunct replays the function in the exception monad (`normalize_codesE`,
whose only fallible step, the `list(x)` coercion, is wrapped by the
source's `try/except`) and shows it always returns `ok` with the pure
function's value; the second shows the documented fallback — an input the
coercion raises on, and that is not null, yields the empty sequence. -/
theorem c4_normalize_codes_never_raises :
    (∀ v, normalize_codesE v = Except.ok (normalize_codes v)) ∧
    (∀ v e, pyList v = Except.error e → pd_isna v = false → normalize_codes v = []) := by
  constructor
  · intro v
    cases v with
    | list xs => rfl
    | str s => rfl
    | none => rfl
    | nan => rfl
    | int n => rfl
    | dict kvs => rfl
    | other o => cases o <;> rfl
  · intro v e hp hn
    cases v with
    | list xs => exact Except.noConfusion hp
    | str s => exact Except.noConfusion hp
    | none => simp [pd_isna] at hn
    | nan => simp [pd_isna] at hn
    | int n => rfl
    | dict kvs => exact Except.noConfusion hp
    | other o =>
      cases o with
      | none => rfl
      | some xs => exact Except.noConfusion hp

/-- Claim C8: the per-branch membership check of the Product → Branches
query returns `False` whenever the Python membership test `product_code in
codes` itself raises (for example on a non-iterable cell); the exception
never propagates out of `branch_has_code`. -/
theorem c8_branch_has_code_defensive (product_code codes : Val) (e : String)
    (h : pyIn product_code codes = Except.error e) :
    branch_has_code product_code codes = false := by
  simp [branch_has_code, h]

theorem c8_witness : branch_has_code (Val.str "PC001") (Val.int 5) = false :=
  c8_branch_has_code_defensive (Val.str "PC001") (Val.int 5)
    "TypeError: argument is not iterable" rfl

/-- Claim C9: round-trip across normalization and query — a branch whose
raw `productCodes` is the string `"A,B"` normalizes to `["A","B"]`, and a
Product → Branches query whose result contains a product with code `"A"`
pairs that product with every such branch of the snapshot. -/
theorem c9_roundtrip (snap : Snapshot) (term : String) (p : Product) (bs : List Branch)
    (b : Branch) (hmem : (p, bs) ∈ searchByProduct term snap)
    (hcode : p.product_code = Val.str "A") (hb : b ∈ snap.branches)
    (hcodes : b.product_codes = normalize_codes (Val.str "A,B")) :
    normalize_codes (Val.str "A,B") = [Val.str "A", Val.str "B"] ∧ b ∈ bs := by
  have hsplit : normalize_codes (Val.str "A,B") = [Val.str "A", Val.str "B"] := by decide
  refine ⟨hsplit, ?_⟩
  obtain ⟨r, -, -, -, hbs⟩ := (mem_searchByProduct term snap p bs).1 hmem
  subst hbs
  refine List.mem_filter.2 ⟨hb, ?_⟩
  rw [branch_has_code_list, hcode, hcodes, hsplit]
  decide

theorem c9_witness :
    normalize_codes (Val.str "A,B") = [Val.str "A", Val.str "B"] ∧
      Branch.mk (Val.str "B1") Val.none Val.none Val.none [Val.str "A", Val.str "B"] ∈
        [Branch.mk (Val.str "B1") Val.none Val.none Val.none [Val.str "A", Val.str "B"]] :=
  c9_roundtrip
    (Snapshot.mk [Product.mk (Val.str "A") (Val.str "Alpha")]
      [Branch.mk (Val.str "B1") Val.none Val.none Val.none [Val.str "A", Val.str "B"]])
    "A" (Product.mk (Val.str "A") (Val.str "Alpha"))
    [Branch.mk (Val.str "B1") Val.none Val.none Val.none [Val.str "A", Val.str "B"]]
    (Branch.mk (Val.str "B1") Val.none Val.none Val.none [Val.str "A", Val.str "B"])
    (by decide) rfl (by decide) (by decide)

/-- Claim C1 as stated is false in two ways.  Null is not non-matching:
on the snapshot holding one product with code "X" and a null (NaN) name,
the query for the term "nan" returns that product, although per the claim
neither field matches (the code stringifies the null cell to "nan" before
matching).  And the term is not matched as a substring: the mask passes it
to the regex engine, so the term "." returns a product named "Car" though
"." occurs in neither field. -/
theorem c1_counterexample :
    ((searchByProduct "nan" (Snapshot.mk [Product.mk (Val.str "X") Val.nan] [])).map Prod.fst =
        [Product.mk (Val.str "X") Val.nan] ∧
      (Snapshot.mk [Product.mk (Val.str "X") Val.nan] []).products.filter
          (fun p => specFieldMatches "nan" p.product_name ||
            specFieldMatches "nan" p.product_code) = []) ∧
    ((searchByProduct "." (Snapshot.mk [Product.mk (Val.str "C7") (Val.str "Car")] [])).map
          Prod.fst = [Product.mk (Val.str "C7") (Val.str "Car")] ∧
      containsCI "Car" "." = false ∧ containsCI "C7" "." = false) := by
  decide

/-- Claim C1 (amended): the Product → Branches query matches the term as a
case-insensitive regular expression against the printed string form of
product_name and product_code (a null cell printing as "nan"); an invalid
regex term raises out of the block.  For every term that compiles, it
returns exactly the products whose printed fields the term matches, in
snapshot order, each paired with exactly the branches whose product_codes
sequence contains that product's code by exact membership (not substring),
in snapshot order; and for every term free of regex metacharacters the
match is exactly: the printed field contains the term as a
case-insensitive substring. -/
theorem c1_product_to_branches_query (term : String) (snap : Snapshot) :
    (∀ r, compileTerm term = Except.ok r →
        ((searchByProduct term snap).map Prod.fst =
          snap.products.filter (productMaskHit r)) ∧
        (∀ p bs, (p, bs) ∈ searchByProduct term snap →
          (∀ b, b ∈ bs ↔ b ∈ snap.branches ∧ p.product_code ∈ b.product_codes) ∧
            bs.Sublist snap.branches)) ∧
    (∀ m, compileTerm term = Except.error (ReErr.invalid m) →
        searchByProductE term snap = Except.error (QueryErr.raised ("re.error: " ++ m))) ∧
    (regexLiteral term = true →
        (searchByProduct term snap).map Prod.fst =
          snap.products.filter (fun p =>
            containsCI (pyStr p.product_name) term ||
              containsCI (pyStr p.product_code) term)) := by
  refine ⟨?_, ?_, ?_⟩
  · intro r hr
    constructor
    · rw [searchByProduct_ok hr, List.map_map]
      exact List.map_id _
    · intro p bs hmem
      obtain ⟨r2, -, -, -, hbs⟩ := (mem_searchByProduct term snap p bs).1 hmem
      subst hbs
      constructor
      · intro b
        rw [List.mem_filter, branch_has_code_list]
        simp [List.elem_iff]
      · exact List.filter_sublist _
  · intro m hm
    rw [searchByProductE, compileTermQ, hm]
  · intro hlit
    have h1 : (searchByProduct term snap).map Prod.fst =
        snap.products.filter (productMaskHit (litRe term.data)) := by
      rw [searchByProduct_ok (compileTerm_literal term hlit), List.map_map]
      exact List.map_id _
    rw [h1]
    apply List.filter_congr
    intro p hp
    rw [productMaskHit, reSearch_litRe_cell, reSearch_litRe_cell]

/-- Claim C2 as stated is false in the same two ways as C1: a branch whose
branch_name cell is null is returned for the term "nan" (the cell is
stringified to "nan" before matching), and the term "." returns a branch
named "York" though "." does not occur in the name — the mask is a regex
search, not a substring test. -/
theorem c2_counterexample :
    ((searchByBranch "nan"
          (Snapshot.mk [] [Branch.mk Val.nan Val.none Val.none Val.none []])).map Prod.fst =
        [Branch.mk Val.nan Val.none Val.none Val.none []] ∧
      (Snapshot.mk [] [Branch.mk Val.nan Val.none Val.none Val.none []]).branches.filter
          (fun b => specFieldMatches "nan" b.branch_name) = []) ∧
    ((searchByBranch "."
          (Snapshot.mk [] [Branch.mk (Val.str "York") Val.none Val.none Val.none []])).map
          Prod.fst = [Branch.mk (Val.str "York") Val.none Val.none Val.none []] ∧
      containsCI "York" "." = false) := by
  decide

/-- Claim C2 (amended): the Branch → Products query matches the term as a
case-insensitive regular expression against the printed string form of
branch_name (a null cell printing as "nan"); an invalid regex term raises
out of the block.  Whenever the block returns (no compile error and no
`isin` TypeError from unhashable product codes), it returns exactly the
branches whose printed name the term matches, each paired with exactly the
products whose product_code is a member of that branch's product_codes
sequence, both in snapshot order.  On snapshots whose codes are hashable:
for every metacharacter-free term the match is exactly case-insensitive
substring containment in the printed name, and in particular the term
"Leeds" returns every branch whose name contains "leeds" in any letter
case. -/
theorem c2_branch_to_products_query (term : String) (snap : Snapshot) :
    (∀ r results, compileTerm term = Except.ok r →
        searchByBranchE term snap = Except.ok results →
        (results.map Prod.fst = snap.branches.filter (branchMaskHit r)) ∧
        (∀ b ps, (b, ps) ∈ results →
          (∀ p, p ∈ ps ↔ p ∈ snap.products ∧ p.product_code ∈ b.product_codes) ∧
            ps.Sublist snap.products)) ∧
    (regexLiteral term = true → snapHashable snap = true →
        (searchByBranch term snap).map Prod.fst =
          snap.branches.filter (fun b => containsCI (pyStr b.branch_name) term)) ∧
    (snapHashable snap = true → ∀ b, b ∈ snap.branches →
        (∃ s, b.branch_name = Val.str s ∧ containsCI s "Leeds" = true) →
        b ∈ (searchByBranch "Leeds" snap).map Prod.fst) := by
  refine ⟨?_, ?_, ?_⟩
  · intro r results hr hok
    simp only [searchByBranchE, compileTermQ, hr] at hok
    cases hp : pairProducts snap (snap.branches.filter (branchMaskHit r)) with
    | error e =>
      simp only [hp] at hok
      exact Except.noConfusion hok
    | ok rs =>
      simp only [hp, Except.ok.injEq] at hok
      subst hok
      obtain ⟨hfst, hmem⟩ := pairProducts_mem hp
      refine ⟨hfst, ?_⟩
      intro b ps hbps
      rw [hmem b ps hbps]
      constructor
      · intro p
        rw [List.mem_filter]
        simp [List.elem_iff]
      · exact List.filter_sublist _
  · intro hlit hh
    rw [searchByBranch_of_hashable (compileTerm_literal term hlit) hh, List.map_map]
    have h1 : (snap.branches.filter (branchMaskHit (litRe term.data))).map
        (Prod.fst ∘ fun b =>
          (b, snap.products.filter (fun p => b.product_codes.contains p.product_code))) =
        snap.branches.filter (branchMaskHit (litRe term.data)) := List.map_id _
    rw [h1]
    apply List.filter_congr
    intro b hb
    rw [branchMaskHit, reSearch_litRe_cell]
  · rintro hh b hb ⟨s, hname, hterm⟩
    have hlit : regexLiteral "Leeds" = true := by decide
    rw [searchByBranch_of_hashable (compileTerm_literal "Leeds" hlit) hh, List.map_map]
    have h1 : (snap.branches.filter (branchMaskHit (litRe "Leeds".data))).map
        (Prod.fst ∘ fun b =>
          (b, snap.products.filter (fun p => b.product_codes.contains p.product_code))) =
        snap.branches.filter (branchMaskHit (litRe "Leeds".data)) := List.map_id _
    rw [h1]
    refine List.mem_filter.2 ⟨hb, ?_⟩
    rw [branchMaskHit, reSearch_litRe_cell, hname]
    exact hterm

/-- Claim C10 as stated is false: the searched field is stringified, but
what follows is not a substring test of the printed form — it is a regex
search, and it can raise independent of the field values.  The term "n.n"
matches a product whose name cell is null (printed form "nan") although
"n.n" does not occur in "nan"; and the term "(" raises re.error out of the
query block regardless of the snapshot. -/
theorem c10_counterexample :
    ((searchByProduct "n.n" (Snapshot.mk [Product.mk (Val.str "P") Val.nan] [])).map Prod.fst =
        [Product.mk (Val.str "P") Val.nan] ∧
      containsCI (pyStr Val.nan) "n.n" = false) ∧
    searchByProductE "(" (Snapshot.mk [] []) =
      Except.error (QueryErr.raised "re.error: missing ), unterminated subpattern") := by
  decide

/-- Claim C10 (amended, implicit behavior of both query blocks): the
searched field is converted with `str` before the test, and the per-cell
test is the case-insensitive regular-expression search of the term in that
printed form — for metacharacter-free terms, exactly case-insensitive
substring containment in the printed form.  So a non-string product_code,
product_name or branch_name participates via its printed form (a null cell
printing "nan", an integer its decimal form; the last conjunct shows a
null name matching the term "NA"), and the cell test never raises on
account of the field's value: only compiling an invalid regex term raises,
independent of every field. -/
theorem c10_stringified_matching (term : String) (snap : Snapshot) :
    (∀ r, compileTerm term = Except.ok r →
        ((searchByProduct term snap).map Prod.fst =
          snap.products.filter (fun p => reSearch true r (pyStr p.product_name).data ||
            reSearch true r (pyStr p.product_code).data)) ∧
        (∀ results, searchByBranchE term snap = Except.ok results →
          results.map Prod.fst =
            snap.branches.filter (fun b => reSearch true r (pyStr b.branch_name).data))) ∧
    (regexLiteral term = true →
        (searchByProduct term snap).map Prod.fst =
          snap.products.filter (fun p =>
            containsCI (pyStr p.product_name) term ||
              containsCI (pyStr p.product_code) term)) ∧
    pyStr Val.nan = "nan" ∧ pyStr (Val.int 12) = "12" ∧
    ((searchByProduct "NA" (Snapshot.mk [Product.mk (Val.str "P1") Val.nan] [])).map Prod.fst =
      [Product.mk (Val.str "P1") Val.nan]) := by
  refine ⟨?_, ?_, rfl, by decide, by decide⟩
  · intro r hr
    constructor
    · rw [searchByProduct_ok hr, List.map_map]
      exact List.map_id _
    · intro results hok
      simp only [searchByBranchE, compileTermQ, hr] at hok
      cases hp : pairProducts snap (snap.branches.filter (branchMaskHit r)) with
      | error e =>
        simp only [hp] at hok
        exact Except.noConfusion hok
      | ok rs =>
        simp only [hp, Except.ok.injEq] at hok
        subst hok
        exact (pairProducts_mem hp).1
  · intro hlit
    have h1 : (searchByProduct term snap).map Prod.fst =
        snap.products.filter (productMaskHit (litRe term.data)) := by
      rw [searchByProduct_ok (compileTerm_literal term hlit), List.map_map]
      exact List.map_id _
    rw [h1]
    apply List.filter_congr
    intro p hp
    rw [productMaskHit, reSearch_litRe_cell, reSearch_litRe_cell]

/-- Claim C5 as stated is false: normalization does not force the elements
of `product_codes` to be strings.  A raw `productCodes` cell that is
already a sequence passes through `normalize_codes` unchanged, so a branch
whose raw cell is the sequence `[1]` ends up with the non-string element
`1` in its normalized `product_codes`. -/
theorem c5_counterexample :
    (normalizeBranches [[("name", Val.str "B"), ("productCodes", Val.list [Val.int 1])]]).map
        Branch.product_codes = [[Val.int 1]] ∧
      (Val.int 1).isStr = false := by
  decide

/-- Claim C5 (amended): after normalization every branch's `product_codes`
is a sequence — the `normalize_codes` image of its raw cell when the raw
records carry the field, and the empty sequence when they lack it
entirely; its elements are all strings when the raw value was a
comma-separated string or missing/null, but a raw sequence passes through
with its elements unchanged, strings or not. -/
theorem c5_normalization_invariant :
    (∀ rows i (h : i < (normalizeBranches rows).length) (hi : i < rows.length),
        ((normalizeBranches rows).get ⟨i, h⟩).product_codes =
          (if hasCodesField rows then normalize_codes (getField (rows.get ⟨i, hi⟩) "productCodes")
           else [])) ∧
    (∀ s, (normalize_codes (Val.str s)).all Val.isStr = true) ∧
    (normalize_codes Val.nan = [] ∧ normalize_codes Val.none = []) ∧
    (∀ xs, normalize_codes (Val.list xs) = xs) ∧
    (∀ rows b, hasCodesField rows = false → b ∈ normalizeBranches rows →
        b.product_codes = []) := by
  refine ⟨?_, ?_, ⟨rfl, rfl⟩, fun xs => rfl, ?_⟩
  · intro rows i h hi
    simp only [normalizeBranches, List.get_eq_getElem, List.getElem_map, normalizeBranch]
  · intro s
    show (stringToCodes s).all Val.isStr = true
    rw [List.all_eq_true]
    intro v hv
    simp only [stringToCodes, List.mem_map] at hv
    obtain ⟨cs, -, rfl⟩ := hv
    rfl
  · intro rows b hcol hb
    simp only [normalizeBranches, hcol, List.mem_map] at hb
    obtain ⟨r, -, rfl⟩ := hb
    simp [normalizeBranch]

/-- A per-day entry whose `openingHour` or `closingHour` is missing or
null is skipped by the formatter's loop. -/
theorem renderEntry_skip_missing (kvs : List (String × Val))
    (h : dictGet kvs "openingHour" Val.none = Val.none ∨
      dictGet kvs "closingHour" Val.none = Val.none) :
    renderEntry (Val.dict kvs) = Option.none := by
  simp only [renderEntry]
  rw [if_pos h]

/-- A per-day entry whose `openingHour` makes `int()` raise is skipped by
the loop's `try/except`. -/
theorem renderEntry_skip_badOpen (kvs : List (String × Val)) (e : String)
    (h : pyInt (dictGet kvs "openingHour" Val.none) = Except.error e) :
    renderEntry (Val.dict kvs) = Option.none := by
  by_cases h0 : dictGet kvs "openingHour" Val.none = Val.none ∨
      dictGet kvs "closingHour" Val.none = Val.none
  · exact renderEntry_skip_missing kvs h0
  · simp only [renderEntry]
    rw [if_neg h0, h]

/-- Claim C6: `format_opening_hours` follows the spec's shape dispatch —
falsy input gives `"N/A"`; a string is returned unchanged; a list renders
exactly its non-skipped per-day entries joined with `", "` (skipping
entries that miss either hour or whose hour fields make `int()` raise,
with minutes defaulting to 0 when present-but-null), giving `"N/A"` when
nothing renders; any other value is stringified; and the function is a
total function of its input — no exception escapes it. -/
theorem c6_format_opening_hours_dispatch :
    (∀ v, truthy v = false → format_opening_hours v = "N/A") ∧
    (∀ s, s ≠ "" → format_opening_hours (Val.str s) = s) ∧
    (∀ entries, entries ≠ [] → format_opening_hours (Val.list entries) =
        (if (entries.filterMap renderEntry).isEmpty then "N/A"
         else String.intercalate ", " (entries.filterMap renderEntry))) ∧
    (∀ kvs, (dictGet kvs "openingHour" Val.none = Val.none ∨
        dictGet kvs "closingHour" Val.none = Val.none) →
        renderEntry (Val.dict kvs) = Option.none) ∧
    (∀ kvs e, pyInt (dictGet kvs "openingHour" Val.none) = Except.error e →
        renderEntry (Val.dict kvs) = Option.none) ∧
    (∀ v, truthy v = true → (∀ s, v ≠ Val.str s) → (∀ xs, v ≠ Val.list xs) →
        format_opening_hours v = pyStr v) ∧
    (format_opening_hours (Val.list [Val.dict [("day", Val.str "Mon"), ("openingHour", Val.int 9),
        ("closingHour", Val.int 17)]]) = "Mon: 09:00–17:00") ∧
    (format_opening_hours (Val.list [Val.dict [("day", Val.str "Tue"), ("openingHour", Val.int 8)],
        Val.dict [("day", Val.str "Mon"), ("openingHour", Val.int 9),
          ("closingHour", Val.int 17)]]) = "Mon: 09:00–17:00") ∧
    (format_opening_hours (Val.list [Val.dict [("day", Val.str "Tue"),
        ("openingHour", Val.int 8)]]) = "N/A") ∧
    (renderEntry (Val.dict [("day", Val.str "Mon"), ("openingHour", Val.int 9),
        ("openingMinute", Val.none), ("closingHour", Val.int 17)]) =
      some "Mon: 09:00–17:00") := by
  refine ⟨?_, ?_, ?_, renderEntry_skip_missing, renderEntry_skip_badOpen, ?_,
    by decide, by decide, by decide, by decide⟩
  · intro v hv
    simp [format_opening_hours, hv]
  · intro s hs
    simp [format_opening_hours, truthy, hs]
  · intro entries he
    cases entries with
    | nil => exact absurd rfl he
    | cons e es => rfl
  · intro v hv hs hl
    cases v with
    | str s => exact absurd rfl (hs s)
    | list xs => exact absurd rfl (hl xs)
    | none => simp [truthy] at hv
    | nan => rfl
    | int n => simp [format_opening_hours, hv]
    | dict kvs => simp [format_opening_hours, hv]
    | other o => simp [format_opening_hours, hv]

/-- Claim C7: when any step of the fetch + normalize cycle fails — an
upstream response is an error (source unreachable / body undecodable) or
its payload cannot be parsed into tabular records — the cycle returns two
empty collections and signals exactly one error message, rather than
raising or returning partial data. -/
theorem c7_fetch_failure (productsResp branchesResp : Except String Val)
    (h : (∃ e, productsResp.bind toRecords = Except.error e) ∨
      (∃ e, branchesResp.bind toRecords = Except.error e)) :
    (fetch_data productsResp branchesResp).products = [] ∧
    (fetch_data productsResp branchesResp).branches = [] ∧
    (fetch_data productsResp branchesResp).errors.length = 1 := by
  rcases productsResp with ep | pv
  · exact ⟨rfl, rfl, rfl⟩
  rcases branchesResp with eb | bv
  · exact ⟨rfl, rfl, rfl⟩
  cases hp : toRecords pv with
  | error e1 => simp [fetch_data, Except.bind, hp]
  | ok rows1 =>
    cases hb : toRecords bv with
    | error e2 => simp [fetch_data, Except.bind, hp, hb]
    | ok rows2 =>
      exfalso
      rcases h with ⟨e, he⟩ | ⟨e, he⟩ <;>
        simp only [Except.bind, hp, hb] at he <;> exact Except.noConfusion he

theorem c7_witness :
    (fetch_data (Except.error "ConnectionError") (Except.ok (Val.list []))).products = [] ∧
    (fetch_data (Except.error "ConnectionError") (Except.ok (Val.list []))).branches = [] ∧
    (fetch_data (Except.error "ConnectionError") (Except.ok (Val.list []))).errors.length = 1 :=
  c7_fetch_failure (Except.error "ConnectionError") (Except.ok (Val.list []))
    (Or.inl ⟨"ConnectionError", rfl⟩)
